import Mathlib

noncomputable section

/-!
Verification of the mass-spring physics integrator `SimTimeStep` of
`src/webgl-physics-shader.js` (lines 222-280).  The JavaScript routine is
shallowly embedded over the real numbers: the `Vec3` helper class used by the
routine (which lives outside `src/`) is modelled from the spec, and each phase
of `SimTimeStep` (dt clamping, spring force accumulation, external forces,
semi-implicit Euler integration, per-axis box collision) is a Lean definition
translated from the corresponding source lines.  Mutable in-place array update
becomes explicit list transformation; `positions[i]` access uses `List.getD`
with a zero default (the claims only concern in-range indices).
-/

/-- Modelled from the spec: the 3-component floating-point vector type `Vec3`
used by `SimTimeStep`; its class definition is not under `src/`.  Spec section
3: a 3-component tuple supporting add, subtract, scalar multiply/divide,
length, and normalization. -/
structure Vec3 where
  x : ℝ
  y : ℝ
  z : ℝ

namespace Vec3

/-- Modelled from the spec: the zero vector `new Vec3(0,0,0)`. -/
def zero : Vec3 := ⟨0, 0, 0⟩

/-- Modelled from the spec: componentwise vector addition (`add` / the
in-place `inc`). -/
def add (a b : Vec3) : Vec3 := ⟨a.x + b.x, a.y + b.y, a.z + b.z⟩

/-- Modelled from the spec: componentwise vector subtraction (`sub` / the
in-place `dec`). -/
def sub (a b : Vec3) : Vec3 := ⟨a.x - b.x, a.y - b.y, a.z - b.z⟩

/-- Modelled from the spec: scalar multiplication `mul`. -/
def mul (a : Vec3) (s : ℝ) : Vec3 := ⟨a.x * s, a.y * s, a.z * s⟩

/-- Modelled from the spec: scalar division `div`. -/
def div (a : Vec3) (s : ℝ) : Vec3 := ⟨a.x / s, a.y / s, a.z / s⟩

/-- Modelled from the spec: Euclidean length `len`. -/
def len (a : Vec3) : ℝ := Real.sqrt (a.x * a.x + a.y * a.y + a.z * a.z)

/-- Modelled from the spec: normalization `unit`, dividing a vector by its
length with no zero-length guard (spec section 7 records that the source has
no guard). -/
def unit (a : Vec3) : Vec3 := a.div a.len

/-- Dot product, used only to state the direction of the spring force. -/
def dot (a b : Vec3) : ℝ := a.x * b.x + a.y * b.y + a.z * b.z

end Vec3

/-- A spring record as consumed by `SimTimeStep` (source lines 212-215):
indices of the two connected particles and the rest length. -/
structure Spring where
  p0 : ℕ
  p1 : ℕ
  rest : ℝ

/-- Source lines 224-227: if `dt > 0.05` the time step is clamped to `0.05`. -/
def clampDt (dt : ℝ) : ℝ := if dt > 0.05 then 0.05 else dt

/-- Source line 225: the advisory `console.warn` fires exactly when
`dt > 0.05`. -/
def SimWarns (dt : ℝ) : Prop := dt > 0.05

/-- Source lines 233-245, body of the `springs.forEach` callback: Hooke spring
force for one spring, added to the accumulator of `p0` and subtracted from the
accumulator of `p1`. -/
def applySpring (stiffness : ℝ) (positions : List Vec3)
    (forces : List Vec3) (s : Spring) : List Vec3 :=
  let p0 := positions.getD s.p0 Vec3.zero
  let p1 := positions.getD s.p1 Vec3.zero
  let displacement := p1.sub p0
  let currentLength := displacement.len
  let direction := displacement.unit
  let forceMagnitude := stiffness * (currentLength - s.rest)
  let springForce := direction.mul forceMagnitude
  let f1 := forces.set s.p0 ((forces.getD s.p0 Vec3.zero).add springForce)
  f1.set s.p1 ((f1.getD s.p1 Vec3.zero).sub springForce)

/-- Source lines 230-245: force accumulators start at zero (line 230) and the
springs are folded over in order (lines 233-245). -/
def springForces (stiffness : ℝ) (positions : List Vec3)
    (springs : List Spring) : List Vec3 :=
  springs.foldl (applySpring stiffness positions)
    (List.replicate positions.length Vec3.zero)

/-- Source lines 248-251: each particle's force gains `gravity * particleMass`
and loses `velocities[i] * damping`. -/
def addExternalForces (damping particleMass : ℝ) (gravity : Vec3)
    (velocities : List Vec3) (forces : List Vec3) : List Vec3 :=
  forces.mapIdx fun i f =>
    (f.add (gravity.mul particleMass)).sub ((velocities.getD i Vec3.zero).mul damping)

/-- Source lines 254-257: semi-implicit Euler velocity update
`v += (F/m) * dt`, for indices below `positions.length` (the loop bound). -/
def integrateVelocities (dt particleMass : ℝ) (forces : List Vec3)
    (positions velocities : List Vec3) : List Vec3 :=
  velocities.mapIdx fun i v =>
    if i < positions.length then
      v.add (((forces.getD i Vec3.zero).div particleMass).mul dt)
    else v

/-- Source line 257: position update `x += v * dt` using the just-updated
velocity. -/
def integratePositions (dt : ℝ) (newVelocities positions : List Vec3) :
    List Vec3 :=
  positions.mapIdx fun i p => p.add ((newVelocities.getD i Vec3.zero).mul dt)

/-- Source lines 266-278, one axis: clamp the position component to the box
`[-1, 1]` and reverse-and-scale the velocity component by `restitution` when
it points outward.  Returns the new (position, velocity) components. -/
def collideAxis (restitution : ℝ) (p v : ℝ) : ℝ × ℝ :=
  if p < -1 then (-1, if v < 0 then v * (-restitution) else v)
  else if p > 1 then (1, if v > 0 then v * (-restitution) else v)
  else (p, v)

/-- Source lines 264-279, one particle: the three axes x, y, z are handled
independently. -/
def collide (restitution : ℝ) (p v : Vec3) : Vec3 × Vec3 :=
  let cx := collideAxis restitution p.x v.x
  let cy := collideAxis restitution p.y v.y
  let cz := collideAxis restitution p.z v.z
  (⟨cx.1, cy.1, cz.1⟩, ⟨cx.2, cy.2, cz.2⟩)

/-- Source lines 264-279: the position component of the collision pass. -/
def collidePositions (restitution : ℝ) (positions velocities : List Vec3) :
    List Vec3 :=
  positions.mapIdx fun i p => (collide restitution p (velocities.getD i Vec3.zero)).1

/-- Source lines 264-279: the velocity component of the collision pass (the
loop bound is `positions.length`). -/
def collideVelocities (restitution : ℝ) (positions velocities : List Vec3) :
    List Vec3 :=
  velocities.mapIdx fun i v =>
    if i < positions.length then
      (collide restitution (positions.getD i Vec3.zero) v).2
    else v

/-- Source lines 230-251: the force accumulators at the end of Step 3 of the
routine (spring forces, then gravity and damping). -/
def stepForces (positions velocities : List Vec3) (springs : List Spring)
    (stiffness damping particleMass : ℝ) (gravity : Vec3) : List Vec3 :=
  addExternalForces damping particleMass gravity velocities
    (springForces stiffness positions springs)

/-- Source lines 254-256: the velocities at the end of Step 4 (with the
already-clamped time step). -/
def stepNewVel (dt : ℝ) (positions velocities : List Vec3) (springs : List Spring)
    (stiffness damping particleMass : ℝ) (gravity : Vec3) : List Vec3 :=
  integrateVelocities (clampDt dt) particleMass
    (stepForces positions velocities springs stiffness damping particleMass gravity)
    positions velocities

/-- Source line 257: the positions at the end of Step 4, computed from the
just-updated velocities. -/
def stepNewPos (dt : ℝ) (positions velocities : List Vec3) (springs : List Spring)
    (stiffness damping particleMass : ℝ) (gravity : Vec3) : List Vec3 :=
  integratePositions (clampDt dt)
    (stepNewVel dt positions velocities springs stiffness damping particleMass gravity)
    positions

/-- Source lines 222-280: one step of the mass-spring simulation.  The JS
routine mutates `positions` and `velocities` in place; the embedding returns
the pair (new positions, new velocities). -/
def SimTimeStep (dt : ℝ) (positions velocities : List Vec3)
    (springs : List Spring) (stiffness damping particleMass : ℝ)
    (gravity : Vec3) (restitution : ℝ) : List Vec3 × List Vec3 :=
  let newVel := stepNewVel dt positions velocities springs stiffness damping particleMass gravity
  let newPos := stepNewPos dt positions velocities springs stiffness damping particleMass gravity
  (collidePositions restitution newPos newVel,
   collideVelocities restitution newPos newVel)

/-- Iterated stepping: `SimTimeStep` with the parameter record fixed, applied
`n` times, used to state properties of repeated calls. -/
def iterateStep (dt : ℝ) (springs : List Spring)
    (stiffness damping particleMass : ℝ) (gravity : Vec3) (restitution : ℝ) :
    ℕ → List Vec3 × List Vec3 → List Vec3 × List Vec3
  | 0, st => st
  | n + 1, st =>
      iterateStep dt springs stiffness damping particleMass gravity restitution n
        (SimTimeStep dt st.1 st.2 springs stiffness damping particleMass gravity restitution)

/-- A position inside the axis-aligned collision box of half-extent 1
(source lines 261-262). -/
def InBox (p : Vec3) : Prop :=
  -1 ≤ p.x ∧ p.x ≤ 1 ∧ -1 ≤ p.y ∧ p.y ≤ 1 ∧ -1 ≤ p.z ∧ p.z ≤ 1

/-- Componentwise sum of a list of vectors, used to state conservation
properties. -/
def vecSum (l : List Vec3) : Vec3 :=
  ⟨(l.map Vec3.x).sum, (l.map Vec3.y).sum, (l.map Vec3.z).sum⟩

/-- Sum of one coordinate (`Vec3.x`, `Vec3.y` or `Vec3.z`) over a list of
vectors; `vecSum` is `compSum` applied to the three coordinates. -/
def compSum (g : Vec3 → ℝ) (l : List Vec3) : ℝ := (l.map g).sum

/-! ### Basic list access lemmas -/

theorem getD_set_self {α : Type} (l : List α) (i : ℕ) (a d : α) (h : i < l.length) :
    (l.set i a).getD i d = a := by
  rw [List.getD_eq_getElem _ _ (by simpa using h), List.getElem_set, if_pos rfl]

theorem getD_set_ne {α : Type} (l : List α) (i j : ℕ) (a d : α) (hne : i ≠ j) :
    (l.set i a).getD j d = l.getD j d := by
  rw [List.getD_eq_getElem?_getD, List.getD_eq_getElem?_getD, List.getElem?_set,
    if_neg hne]

theorem getD_mapIdx {α β : Type} (l : List α) (f : ℕ → α → β) (i : ℕ) (d : β)
    (d' : α) (h : i < l.length) :
    (l.mapIdx f).getD i d = f i (l.getD i d') := by
  rw [List.getD_eq_getElem _ _ (by simpa using h), List.getD_eq_getElem _ _ h,
    List.getElem_mapIdx]

/-! ### Length preservation of each phase -/

theorem length_applySpring (k : ℝ) (P f : List Vec3) (s : Spring) :
    (applySpring k P f s).length = f.length := by
  simp [applySpring]

theorem foldl_applySpring_length (k : ℝ) (P : List Vec3) (S : List Spring)
    (f : List Vec3) :
    (S.foldl (applySpring k P) f).length = f.length := by
  induction S generalizing f with
  | nil => rfl
  | cons s t ih => rw [List.foldl_cons, ih, length_applySpring]

theorem length_springForces (k : ℝ) (P : List Vec3) (S : List Spring) :
    (springForces k P S).length = P.length := by
  rw [springForces, foldl_applySpring_length, List.length_replicate]

theorem length_addExternalForces (d m : ℝ) (g : Vec3) (V f : List Vec3) :
    (addExternalForces d m g V f).length = f.length := by
  simp [addExternalForces]

theorem length_integrateVelocities (dt m : ℝ) (f P V : List Vec3) :
    (integrateVelocities dt m f P V).length = V.length := by
  simp [integrateVelocities]

theorem length_integratePositions (dt : ℝ) (nV P : List Vec3) :
    (integratePositions dt nV P).length = P.length := by
  simp [integratePositions]

theorem length_collidePositions (r : ℝ) (P V : List Vec3) :
    (collidePositions r P V).length = P.length := by
  simp [collidePositions]

theorem length_collideVelocities (r : ℝ) (P V : List Vec3) :
    (collideVelocities r P V).length = V.length := by
  simp [collideVelocities]

theorem length_stepForces (P V : List Vec3) (S : List Spring) (k d m : ℝ) (g : Vec3) :
    (stepForces P V S k d m g).length = P.length := by
  rw [stepForces, length_addExternalForces, length_springForces]

theorem length_stepNewVel (dt : ℝ) (P V : List Vec3) (S : List Spring) (k d m : ℝ)
    (g : Vec3) : (stepNewVel dt P V S k d m g).length = V.length := by
  rw [stepNewVel, length_integrateVelocities]

theorem length_stepNewPos (dt : ℝ) (P V : List Vec3) (S : List Spring) (k d m : ℝ)
    (g : Vec3) : (stepNewPos dt P V S k d m g).length = P.length := by
  rw [stepNewPos, length_integratePositions]

/-! ### Collision pass lemmas -/

theorem collideAxis_of_inBounds (r p v : ℝ) (h1 : -1 ≤ p) (h2 : p ≤ 1) :
    collideAxis r p v = (p, v) := by
  rw [collideAxis, if_neg (by linarith), if_neg (by linarith)]

theorem collide_of_inBox (r : ℝ) (p v : Vec3) (h : InBox p) : collide r p v = (p, v) := by
  obtain ⟨h1, h2, h3, h4, h5, h6⟩ := h
  rw [collide]
  simp only [collideAxis_of_inBounds r p.x v.x h1 h2, collideAxis_of_inBounds r p.y v.y h3 h4,
    collideAxis_of_inBounds r p.z v.z h5 h6]

theorem collideAxis_fst_bounds (r p v : ℝ) :
    -1 ≤ (collideAxis r p v).1 ∧ (collideAxis r p v).1 ≤ 1 := by
  rw [collideAxis]
  by_cases h1 : p < -1
  · rw [if_pos h1]
    exact ⟨le_refl _, by norm_num⟩
  · rw [if_neg h1]
    by_cases h2 : p > 1
    · rw [if_pos h2]
      exact ⟨by norm_num, le_refl _⟩
    · rw [if_neg h2, not_lt] at *
      exact ⟨h1, h2⟩

theorem collidePositions_of_inBox (r : ℝ) (P V : List Vec3) (h : ∀ p ∈ P, InBox p) :
    collidePositions r P V = P := by
  apply List.ext_getElem (by simp [collidePositions])
  intro i h1 h2
  simp only [collidePositions, List.getElem_mapIdx]
  rw [collide_of_inBox _ _ _ (h _ (List.getElem_mem h2))]

theorem collideVelocities_of_inBox (r : ℝ) (P V : List Vec3) (h : ∀ p ∈ P, InBox p) :
    collideVelocities r P V = V := by
  apply List.ext_getElem (by simp [collideVelocities])
  intro i h1 h2
  simp only [collideVelocities, List.getElem_mapIdx]
  by_cases hip : i < P.length
  · rw [if_pos hip, collide_of_inBox]
    exact h _ (List.getD_eq_getElem P Vec3.zero hip ▸ List.getElem_mem hip)
  · rw [if_neg hip]

/-! ### Claim theorems -/

/-- C3: after the integration phase, for every particle and each of the three
axes independently: a position component below -1 is set to exactly -1 and, if
the velocity component is additionally negative, the velocity component is
replaced by `-restitution` times itself; symmetrically at the +1 bound for a
positive velocity component; non-outward velocity components are unchanged,
and `collide` treats the three axes by applying `collideAxis` componentwise. -/
theorem C3_per_axis_collision (restitution p v : ℝ) (pos vel : Vec3) :
    (p < -1 → (collideAxis restitution p v).1 = -1
      ∧ (v < 0 → (collideAxis restitution p v).2 = -restitution * v)
      ∧ (0 ≤ v → (collideAxis restitution p v).2 = v))
    ∧ (p > 1 → (collideAxis restitution p v).1 = 1
      ∧ (0 < v → (collideAxis restitution p v).2 = -restitution * v)
      ∧ (v ≤ 0 → (collideAxis restitution p v).2 = v))
    ∧ (-1 ≤ p → p ≤ 1 → collideAxis restitution p v = (p, v))
    ∧ collide restitution pos vel
      = (⟨(collideAxis restitution pos.x vel.x).1, (collideAxis restitution pos.y vel.y).1,
          (collideAxis restitution pos.z vel.z).1⟩,
         ⟨(collideAxis restitution pos.x vel.x).2, (collideAxis restitution pos.y vel.y).2,
          (collideAxis restitution pos.z vel.z).2⟩) := by
  refine ⟨?_, ?_, ?_, rfl⟩
  · intro h1
    rw [collideAxis, if_pos h1]
    refine ⟨rfl, ?_, ?_⟩
    · intro hv
      show (if v < 0 then v * (-restitution) else v) = -restitution * v
      rw [if_pos hv]
      ring
    · intro hv
      show (if v < 0 then v * (-restitution) else v) = v
      rw [if_neg (not_lt.mpr hv)]
  · intro h2
    rw [collideAxis, if_neg (by linarith), if_pos h2]
    refine ⟨rfl, ?_, ?_⟩
    · intro hv
      show (if v > 0 then v * (-restitution) else v) = -restitution * v
      rw [if_pos hv]
      ring
    · intro hv
      show (if v > 0 then v * (-restitution) else v) = v
      rw [if_neg (not_lt.mpr hv)]
  · intro h1 h2
    exact collideAxis_of_inBounds restitution p v h1 h2

/-- Witness for C3 at restitution 0.5, a particle at position component -2
moving inward with velocity component -3: the position is clamped to -1 and
the velocity becomes -0.5 * (-3). -/
theorem C3_witness :
    ((-2 : ℝ) < -1) ∧ ((-3 : ℝ) < 0)
    ∧ (collideAxis 0.5 (-2) (-3)).1 = -1 ∧ (collideAxis 0.5 (-2) (-3)).2 = -(0.5) * (-3) := by
  have h := (C3_per_axis_collision 0.5 (-2) (-3) Vec3.zero Vec3.zero).1 (by norm_num)
  exact ⟨by norm_num, by norm_num, h.1, h.2.1 (by norm_num)⟩

/-- C4: for every input state, a call with `dt > 0.05` produces exactly the
same result as a call with `dt = 0.05`, and the advisory warning condition
fires. -/
theorem C4_dt_clamped (dt : ℝ) (positions velocities : List Vec3)
    (springs : List Spring) (stiffness damping particleMass : ℝ) (gravity : Vec3)
    (restitution : ℝ) (h : dt > 0.05) :
    SimTimeStep dt positions velocities springs stiffness damping particleMass
        gravity restitution
      = SimTimeStep 0.05 positions velocities springs stiffness damping particleMass
        gravity restitution
    ∧ SimWarns dt := by
  have hc : clampDt dt = clampDt 0.05 := by
    rw [clampDt, clampDt, if_pos h, if_neg (by norm_num)]
  refine ⟨?_, h⟩
  rw [SimTimeStep, SimTimeStep, stepNewPos, stepNewPos, stepNewVel, stepNewVel, hc]

/-- Witness for C4: stepping a one-particle state with `dt = 1.0` equals
stepping it with `dt = 0.05`. -/
theorem C4_witness :
    ((1 : ℝ) > 0.05)
    ∧ SimTimeStep 1 [Vec3.zero] [Vec3.zero] [] 1 1 1 Vec3.zero 1
      = SimTimeStep 0.05 [Vec3.zero] [Vec3.zero] [] 1 1 1 Vec3.zero 1
    ∧ SimWarns 1 :=
  ⟨by norm_num, C4_dt_clamped 1 [Vec3.zero] [Vec3.zero] [] 1 1 1 Vec3.zero 1 (by norm_num)⟩

/-- C7: for every valid input (equal-length position and velocity lists, valid
spring indices, positive mass) and any `dt ≤ 0.05`, one step preserves both
list lengths: no particle is added or removed. -/
theorem C7_lengths_preserved (dt : ℝ) (positions velocities : List Vec3)
    (springs : List Spring) (stiffness damping particleMass : ℝ) (gravity : Vec3)
    (restitution : ℝ) (hlen : velocities.length = positions.length)
    (hval : ∀ s ∈ springs, s.p0 < positions.length ∧ s.p1 < positions.length)
    (hm : 0 < particleMass) (hdt : dt ≤ 0.05) :
    (SimTimeStep dt positions velocities springs stiffness damping particleMass
        gravity restitution).1.length = positions.length
    ∧ (SimTimeStep dt positions velocities springs stiffness damping particleMass
        gravity restitution).2.length = velocities.length := by
  constructor
  · rw [SimTimeStep, length_collidePositions, length_stepNewPos]
  · rw [SimTimeStep, length_collideVelocities, length_stepNewVel]

/-- Witness for C7 on a two-particle, one-spring state. -/
theorem C7_witness :
    ([Vec3.zero, Vec3.zero] : List Vec3).length = ([⟨0, 0, 0⟩, ⟨0, 1, 0⟩] : List Vec3).length
    ∧ (∀ s ∈ [(⟨0, 1, 1⟩ : Spring)], s.p0 < 2 ∧ s.p1 < 2)
    ∧ ((0 : ℝ) < 1) ∧ ((0.05 : ℝ) ≤ 0.05)
    ∧ (SimTimeStep 0.05 [⟨0, 0, 0⟩, ⟨0, 1, 0⟩] [Vec3.zero, Vec3.zero] [⟨0, 1, 1⟩] 1 1 1
        Vec3.zero 1).1.length = 2
    ∧ (SimTimeStep 0.05 [⟨0, 0, 0⟩, ⟨0, 1, 0⟩] [Vec3.zero, Vec3.zero] [⟨0, 1, 1⟩] 1 1 1
        Vec3.zero 1).2.length = 2 := by
  have h := C7_lengths_preserved 0.05 [⟨0, 0, 0⟩, ⟨0, 1, 0⟩] [Vec3.zero, Vec3.zero]
    [⟨0, 1, 1⟩] 1 1 1 Vec3.zero 1 rfl (by intro s hs; simp at hs; subst hs; exact ⟨by norm_num, by norm_num⟩)
    (by norm_num) (by norm_num)
  exact ⟨rfl, by intro s hs; simp at hs; subst hs; exact ⟨by norm_num, by norm_num⟩,
    by norm_num, by norm_num, h.1, h.2⟩

/-- C1: for every spring processed by the spring pass, with displacement
`d = positions[p1] - positions[p0]`, length `L`, unit direction `u`, the
scalar magnitude is `stiffness * (L - rest)`; the vector `u * f` is added to
the accumulator of `p0` and subtracted from the accumulator of `p1`, and when
the spring is stretched (`f > 0`, `L` nonzero) the force added to `p0` points
toward `p1` (positive inner product with `d`). -/
theorem C1_spring_force_accumulation (stiffness : ℝ) (positions forces : List Vec3)
    (s : Spring) (h0 : s.p0 < forces.length) (h1 : s.p1 < forces.length)
    (hne : s.p0 ≠ s.p1) :
    let d := (positions.getD s.p1 Vec3.zero).sub (positions.getD s.p0 Vec3.zero)
    let L := Vec3.len d
    let u := Vec3.unit d
    let f := stiffness * (L - s.rest)
    (applySpring stiffness positions forces s).getD s.p0 Vec3.zero
        = (forces.getD s.p0 Vec3.zero).add (u.mul f)
      ∧ (applySpring stiffness positions forces s).getD s.p1 Vec3.zero
        = (forces.getD s.p1 Vec3.zero).sub (u.mul f)
      ∧ (L ≠ 0 → 0 < f → 0 < (u.mul f).dot d) := by
  intro d L u f
  refine ⟨?_, ?_, ?_⟩
  · simp only [applySpring]
    rw [getD_set_ne _ _ _ _ _ (Ne.symm hne), getD_set_self _ _ _ _ h0]
  · simp only [applySpring]
    rw [getD_set_self _ _ _ _ (by simpa using h1),
      getD_set_ne _ _ _ _ _ hne]
  · intro hL hf
    have hL' : Vec3.len d ≠ 0 := hL
    have hq : (0 : ℝ) ≤ d.x * d.x + d.y * d.y + d.z * d.z :=
      add_nonneg (add_nonneg (mul_self_nonneg _) (mul_self_nonneg _)) (mul_self_nonneg _)
    have hq0 : (0 : ℝ) < d.x * d.x + d.y * d.y + d.z * d.z := by
      rcases lt_or_eq_of_le hq with h | h
      · exact h
      · exact absurd (by rw [Vec3.len, ← h, Real.sqrt_zero]) hL'
    have hL0 : 0 < Vec3.len d := Real.sqrt_pos.mpr hq0
    have hdot : (u.mul f).dot d
        = f / Vec3.len d * (d.x * d.x + d.y * d.y + d.z * d.z) := by
      show ((d.div (Vec3.len d)).mul f).dot d = _
      simp only [Vec3.div, Vec3.mul, Vec3.dot]
      ring
    rw [hdot]
    exact mul_pos (div_pos hf hL0) hq0

/-- Witness for C1: two particles at distance 2 joined by a rest-1 spring with
stiffness 1; the spring is stretched and the force accumulated on `p0` points
toward `p1`. -/
theorem C1_witness :
    (0 : ℕ) < 2 ∧ (1 : ℕ) < 2 ∧ (0 : ℕ) ≠ 1
    ∧ (let d := ((([⟨0, 0, 0⟩, ⟨0, 0, 2⟩] : List Vec3).getD 1 Vec3.zero).sub
          (([⟨0, 0, 0⟩, ⟨0, 0, 2⟩] : List Vec3).getD 0 Vec3.zero))
       let L := Vec3.len d
       let u := Vec3.unit d
       let f := (1 : ℝ) * (L - (1 : ℝ))
       (applySpring 1 [⟨0, 0, 0⟩, ⟨0, 0, 2⟩] [Vec3.zero, Vec3.zero] ⟨0, 1, 1⟩).getD 0 Vec3.zero
          = (([Vec3.zero, Vec3.zero] : List Vec3).getD 0 Vec3.zero).add (u.mul f)
        ∧ (applySpring 1 [⟨0, 0, 0⟩, ⟨0, 0, 2⟩] [Vec3.zero, Vec3.zero] ⟨0, 1, 1⟩).getD 1 Vec3.zero
          = (([Vec3.zero, Vec3.zero] : List Vec3).getD 1 Vec3.zero).sub (u.mul f)
        ∧ (L ≠ 0 → 0 < f → 0 < (u.mul f).dot d)) :=
  ⟨by norm_num, by norm_num, by norm_num,
    C1_spring_force_accumulation 1 [⟨0, 0, 0⟩, ⟨0, 0, 2⟩] [Vec3.zero, Vec3.zero]
      ⟨0, 1, 1⟩ (by norm_num) (by norm_num) (by norm_num)⟩

/-- C2: for every particle `i`, the force pass adds `gravity * particleMass`
and subtracts `velocities[i] * damping`; then the integration runs in order:
acceleration `F/m`, velocity update `v += a * dt`, and position update
`x += v * dt` with the just-updated velocity; `SimTimeStep` is the collision
pass applied to exactly these integrated lists. -/
theorem C2_semi_implicit_euler (dt : ℝ) (positions velocities : List Vec3)
    (springs : List Spring) (stiffness damping particleMass : ℝ) (gravity : Vec3)
    (restitution : ℝ) (i : ℕ) (hi : i < positions.length)
    (hlen : velocities.length = positions.length) :
    (stepForces positions velocities springs stiffness damping particleMass gravity).getD
        i Vec3.zero
      = (((springForces stiffness positions springs).getD i Vec3.zero).add
          (gravity.mul particleMass)).sub ((velocities.getD i Vec3.zero).mul damping)
    ∧ (stepNewVel dt positions velocities springs stiffness damping particleMass
          gravity).getD i Vec3.zero
      = (velocities.getD i Vec3.zero).add
          ((((stepForces positions velocities springs stiffness damping particleMass
              gravity).getD i Vec3.zero).div particleMass).mul (clampDt dt))
    ∧ (stepNewPos dt positions velocities springs stiffness damping particleMass
          gravity).getD i Vec3.zero
      = (positions.getD i Vec3.zero).add
          (((stepNewVel dt positions velocities springs stiffness damping particleMass
              gravity).getD i Vec3.zero).mul (clampDt dt))
    ∧ SimTimeStep dt positions velocities springs stiffness damping particleMass
          gravity restitution
      = (collidePositions restitution
           (stepNewPos dt positions velocities springs stiffness damping particleMass gravity)
           (stepNewVel dt positions velocities springs stiffness damping particleMass gravity),
         collideVelocities restitution
           (stepNewPos dt positions velocities springs stiffness damping particleMass gravity)
           (stepNewVel dt positions velocities springs stiffness damping particleMass gravity)) := by
  refine ⟨?_, ?_, ?_, rfl⟩
  · rw [stepForces, addExternalForces,
      getD_mapIdx _ _ i Vec3.zero Vec3.zero (by rw [length_springForces]; exact hi)]
  · rw [stepNewVel, integrateVelocities,
      getD_mapIdx _ _ i Vec3.zero Vec3.zero (by rw [hlen]; exact hi), if_pos hi]
  · rw [stepNewPos, integratePositions, getD_mapIdx _ _ i Vec3.zero Vec3.zero hi]

/-- Witness for C2 on a one-particle state: the velocity-update equation at
particle 0. -/
theorem C2_witness :
    (0 : ℕ) < ([⟨0, 0, 0⟩] : List Vec3).length
    ∧ ([⟨0, 1, 0⟩] : List Vec3).length = ([⟨0, 0, 0⟩] : List Vec3).length
    ∧ (stepNewVel 0.01 [⟨0, 0, 0⟩] [⟨0, 1, 0⟩] [] 1 1 1 ⟨0, -10, 0⟩).getD 0 Vec3.zero
      = (([⟨0, 1, 0⟩] : List Vec3).getD 0 Vec3.zero).add
          ((((stepForces [⟨0, 0, 0⟩] [⟨0, 1, 0⟩] [] 1 1 1 ⟨0, -10, 0⟩).getD 0
              Vec3.zero).div 1).mul (clampDt 0.01)) :=
  ⟨by norm_num, rfl,
    (C2_semi_implicit_euler 0.01 [⟨0, 0, 0⟩] [⟨0, 1, 0⟩] [] 1 1 1 ⟨0, -10, 0⟩ 1 0
      (by norm_num) rfl).2.1⟩

/-- The first (position) output of the per-particle collision always lies in
the box, on every axis. -/
theorem collide_fst_inBox (r : ℝ) (p v : Vec3) : InBox (collide r p v).1 :=
  ⟨(collideAxis_fst_bounds r p.x v.x).1, (collideAxis_fst_bounds r p.x v.x).2,
   (collideAxis_fst_bounds r p.y v.y).1, (collideAxis_fst_bounds r p.y v.y).2,
   (collideAxis_fst_bounds r p.z v.z).1, (collideAxis_fst_bounds r p.z v.z).2⟩

/-- C8: on the input with two coincident particles joined by a spring, the
spring pass reaches the normalization of the zero-length displacement: the
displacement has length 0, the direction computation divides the displacement
by the zero length with no guard, and the spring pass on this input is exactly
one unguarded `applySpring` call. -/
theorem C8_zero_length_normalization_reachable :
    let positions : List Vec3 := [Vec3.zero, Vec3.zero]
    let s : Spring := ⟨0, 1, 1⟩
    let displacement :=
      (positions.getD s.p1 Vec3.zero).sub (positions.getD s.p0 Vec3.zero)
    Vec3.len displacement = 0
    ∧ Vec3.unit displacement = displacement.div 0
    ∧ springForces 1 positions [s]
      = applySpring 1 positions (List.replicate positions.length Vec3.zero) s := by
  intro positions s displacement
  have hlen : Vec3.len displacement = 0 := by
    show Vec3.len (Vec3.zero.sub Vec3.zero) = 0
    simp [Vec3.len, Vec3.sub, Vec3.zero]
  exact ⟨hlen, by rw [Vec3.unit, hlen], rfl⟩

/-- C9: for every input with finite arithmetic (nonzero mass, no zero-length
spring displacement), every in-range coordinate of the output positions lies
in `[-1, 1]`: the collision pass establishes box containment regardless of the
pre-step positions. -/
theorem C9_box_containment (dt : ℝ) (positions velocities : List Vec3)
    (springs : List Spring) (stiffness damping particleMass : ℝ) (gravity : Vec3)
    (restitution : ℝ) (hm : particleMass ≠ 0)
    (hsp : ∀ s ∈ springs,
      Vec3.len ((positions.getD s.p1 Vec3.zero).sub (positions.getD s.p0 Vec3.zero)) ≠ 0)
    (i : ℕ)
    (hi : i < (SimTimeStep dt positions velocities springs stiffness damping
        particleMass gravity restitution).1.length) :
    InBox ((SimTimeStep dt positions velocities springs stiffness damping particleMass
        gravity restitution).1.getD i Vec3.zero) := by
  rw [SimTimeStep, length_collidePositions] at hi
  show InBox ((collidePositions restitution
    (stepNewPos dt positions velocities springs stiffness damping particleMass gravity)
    (stepNewVel dt positions velocities springs stiffness damping particleMass gravity)).getD
      i Vec3.zero)
  rw [collidePositions, getD_mapIdx _ _ i Vec3.zero Vec3.zero hi]
  exact collide_fst_inBox _ _ _

/-- Witness for C9: a particle starting far outside the box at x = 3 ends the
step inside the box. -/
theorem C9_witness :
    ((1 : ℝ) ≠ 0)
    ∧ (∀ s ∈ ([] : List Spring),
        Vec3.len ((([⟨3, 0, 0⟩] : List Vec3).getD s.p1 Vec3.zero).sub
          (([⟨3, 0, 0⟩] : List Vec3).getD s.p0 Vec3.zero)) ≠ 0)
    ∧ 0 < (SimTimeStep 0.01 [⟨3, 0, 0⟩] [Vec3.zero] [] 1 0 1 Vec3.zero 1).1.length
    ∧ InBox ((SimTimeStep 0.01 [⟨3, 0, 0⟩] [Vec3.zero] [] 1 0 1 Vec3.zero 1).1.getD
        0 Vec3.zero) := by
  have hi : 0 < (SimTimeStep 0.01 [⟨3, 0, 0⟩] [Vec3.zero] [] 1 0 1 Vec3.zero 1).1.length := by
    rw [SimTimeStep, length_collidePositions, length_stepNewPos]
    norm_num
  exact ⟨by norm_num, by simp,  hi,
    C9_box_containment 0.01 [⟨3, 0, 0⟩] [Vec3.zero] [] 1 0 1 Vec3.zero 1 (by norm_num)
      (by simp) 0 hi⟩

/-- Counterexample to C6 as stated: a particle resting outside the box at
x = 2 is moved by a `dt = 0` step, because the collision pass clamps its x
coordinate to 1; a zero time step therefore does not leave every input state
unchanged. -/
theorem C6_counterexample :
    SimTimeStep 0 [⟨2, 0, 0⟩] [Vec3.zero] [] 0 0 1 Vec3.zero 1
      ≠ ([⟨2, 0, 0⟩], [Vec3.zero]) := by
  have hstep : (SimTimeStep 0 [⟨2, 0, 0⟩] [Vec3.zero] [] 0 0 1 Vec3.zero 1).1
      = [⟨1, 0, 0⟩] := by
    show collidePositions 1 (stepNewPos 0 [⟨2, 0, 0⟩] [Vec3.zero] [] 0 0 1 Vec3.zero)
      (stepNewVel 0 [⟨2, 0, 0⟩] [Vec3.zero] [] 0 0 1 Vec3.zero) = [⟨1, 0, 0⟩]
    norm_num [stepNewPos, stepNewVel, stepForces, springForces, addExternalForces,
      integrateVelocities, integratePositions, collidePositions, collide, collideAxis,
      clampDt, Vec3.add, Vec3.sub, Vec3.mul, Vec3.div, Vec3.zero, List.mapIdx_cons,
      List.mapIdx_nil, List.replicate]
  intro h
  have hx := congrArg (fun pr : List Vec3 × List Vec3 => ((pr.1).getD 0 Vec3.zero).x) h
  simp only [hstep, List.getD_cons_zero] at hx
  norm_num at hx

/-- C6 (amended): for every input state whose positions lie inside the
collision box and whose arithmetic stays finite (nonzero mass, no zero-length
spring displacement), a step with `dt = 0` leaves all positions and velocities
unchanged; 0 is not clamped. -/
theorem C6_zero_dt_identity (positions velocities : List Vec3) (springs : List Spring)
    (stiffness damping particleMass : ℝ) (gravity : Vec3) (restitution : ℝ)
    (hm : particleMass ≠ 0)
    (hsp : ∀ s ∈ springs,
      Vec3.len ((positions.getD s.p1 Vec3.zero).sub (positions.getD s.p0 Vec3.zero)) ≠ 0)
    (hbox : ∀ p ∈ positions, InBox p) :
    SimTimeStep 0 positions velocities springs stiffness damping particleMass gravity
      restitution = (positions, velocities) := by
  have hdt : clampDt 0 = 0 := by rw [clampDt, if_neg (by norm_num)]
  have hvel : stepNewVel 0 positions velocities springs stiffness damping particleMass
      gravity = velocities := by
    rw [stepNewVel, hdt, integrateVelocities]
    apply List.ext_getElem (by simp)
    intro i h1 h2
    rw [List.getElem_mapIdx]
    split
    · simp [Vec3.add, Vec3.mul]
    · rfl
  have hpos : stepNewPos 0 positions velocities springs stiffness damping particleMass
      gravity = positions := by
    rw [stepNewPos, hdt, integratePositions]
    apply List.ext_getElem (by simp)
    intro i h1 h2
    rw [List.getElem_mapIdx]
    simp [Vec3.add, Vec3.mul]
  show (collidePositions restitution
      (stepNewPos 0 positions velocities springs stiffness damping particleMass gravity)
      (stepNewVel 0 positions velocities springs stiffness damping particleMass gravity),
    collideVelocities restitution
      (stepNewPos 0 positions velocities springs stiffness damping particleMass gravity)
      (stepNewVel 0 positions velocities springs stiffness damping particleMass gravity))
    = (positions, velocities)
  rw [hvel, hpos, collidePositions_of_inBox _ _ _ hbox,
    collideVelocities_of_inBox _ _ _ hbox]

/-- Witness for C6 (amended) on an in-box one-particle state with a nonzero
velocity. -/
theorem C6_witness :
    ((1 : ℝ) ≠ 0)
    ∧ (∀ p ∈ ([⟨0.5, 0, 0⟩] : List Vec3), InBox p)
    ∧ SimTimeStep 0 [⟨0.5, 0, 0⟩] [⟨1, 2, 3⟩] [] 1 1 1 ⟨0, -10, 0⟩ 1
      = ([⟨0.5, 0, 0⟩], [⟨1, 2, 3⟩]) := by
  have hbox : ∀ p ∈ ([⟨0.5, 0, 0⟩] : List Vec3), InBox p := by
    intro p hp
    simp at hp
    subst hp
    norm_num [InBox]
  exact ⟨by norm_num, hbox,
    C6_zero_dt_identity [⟨0.5, 0, 0⟩] [⟨1, 2, 3⟩] [] 1 1 1 ⟨0, -10, 0⟩ 1 (by norm_num)
      (by simp) hbox⟩

/-- Counterexample to C5 as stated: two particles at distance exactly equal to
the rest length 1, with zero velocity, zero gravity, zero damping and
restitution 1, do not remain stationary when they start outside the box:
the collision pass moves them on the first step. -/
theorem C5_counterexample :
    Vec3.len ((⟨5, 1, 0⟩ : Vec3).sub ⟨5, 0, 0⟩) = 1
    ∧ iterateStep 0.05 [⟨0, 1, 1⟩] 1 0 1 Vec3.zero 1 1
        ([⟨5, 0, 0⟩, ⟨5, 1, 0⟩], [Vec3.zero, Vec3.zero])
      ≠ ([⟨5, 0, 0⟩, ⟨5, 1, 0⟩], [Vec3.zero, Vec3.zero]) := by
  have hlen : Vec3.len ((⟨5, 1, 0⟩ : Vec3).sub ⟨5, 0, 0⟩) = 1 := by
    rw [Vec3.len, Vec3.sub]
    norm_num
  refine ⟨hlen, ?_⟩
  have hone : iterateStep 0.05 [⟨0, 1, 1⟩] 1 0 1 Vec3.zero 1 1
        ([⟨5, 0, 0⟩, ⟨5, 1, 0⟩], [Vec3.zero, Vec3.zero])
      = SimTimeStep 0.05 [⟨5, 0, 0⟩, ⟨5, 1, 0⟩] [Vec3.zero, Vec3.zero] [⟨0, 1, 1⟩]
          1 0 1 Vec3.zero 1 := rfl
  rw [hone]
  intro h
  have hSF : springForces 1 [⟨5, 0, 0⟩, ⟨5, 1, 0⟩] [⟨0, 1, 1⟩]
      = [Vec3.zero, Vec3.zero] := by
    show applySpring 1 [⟨5, 0, 0⟩, ⟨5, 1, 0⟩] [Vec3.zero, Vec3.zero] ⟨0, 1, 1⟩
      = [Vec3.zero, Vec3.zero]
    simp only [applySpring, List.getD_cons_zero, List.getD_cons_succ]
    rw [show ((⟨5, 1, 0⟩ : Vec3).sub ⟨5, 0, 0⟩) = ⟨0, 1, 0⟩ by rw [Vec3.sub]; norm_num]
    rw [show Vec3.len ⟨0, 1, 0⟩ = 1 by rw [Vec3.len]; norm_num]
    norm_num [Vec3.unit, Vec3.len, Vec3.div, Vec3.mul, Vec3.add, Vec3.sub, Vec3.zero]
  have hstep : (SimTimeStep 0.05 [⟨5, 0, 0⟩, ⟨5, 1, 0⟩] [Vec3.zero, Vec3.zero]
      [⟨0, 1, 1⟩] 1 0 1 Vec3.zero 1).1.getD 0 Vec3.zero = ⟨1, 0, 0⟩ := by
    show (collidePositions 1
      (stepNewPos 0.05 [⟨5, 0, 0⟩, ⟨5, 1, 0⟩] [Vec3.zero, Vec3.zero] [⟨0, 1, 1⟩] 1 0 1 Vec3.zero)
      (stepNewVel 0.05 [⟨5, 0, 0⟩, ⟨5, 1, 0⟩] [Vec3.zero, Vec3.zero] [⟨0, 1, 1⟩] 1 0 1 Vec3.zero)).getD
        0 Vec3.zero = ⟨1, 0, 0⟩
    rw [stepNewPos, stepNewVel, stepForces, hSF]
    norm_num [addExternalForces, integrateVelocities, integratePositions,
      collidePositions, collide, collideAxis, clampDt, Vec3.add, Vec3.sub, Vec3.mul,
      Vec3.div, Vec3.zero, List.mapIdx_cons, List.mapIdx_nil]
  have hx := congrArg (fun pr : List Vec3 × List Vec3 => ((pr.1).getD 0 Vec3.zero).x) h
  simp only [hstep, List.getD_cons_zero] at hx
  norm_num at hx

/-- C5 (amended): with zero gravity, zero damping and restitution 1, two
particles that lie inside the collision box, joined by a single spring of
stiffness `k` whose current length equals its rest length `r`, with zero
velocities and nonzero mass, form a fixed point: every number of repeated
`SimTimeStep` calls leaves positions and velocities unchanged. -/
theorem C5_equilibrium_fixed_point (dt k r m : ℝ) (a b : Vec3) (hm : m ≠ 0)
    (hr : Vec3.len (b.sub a) = r) (ha : InBox a) (hb : InBox b) (n : ℕ) :
    iterateStep dt [⟨0, 1, r⟩] k 0 m Vec3.zero 1 n ([a, b], [Vec3.zero, Vec3.zero])
      = ([a, b], [Vec3.zero, Vec3.zero]) := by
  have hSF : springForces k [a, b] [⟨0, 1, r⟩] = [Vec3.zero, Vec3.zero] := by
    show applySpring k [a, b] [Vec3.zero, Vec3.zero] ⟨0, 1, r⟩ = [Vec3.zero, Vec3.zero]
    simp only [applySpring, List.getD_cons_zero, List.getD_cons_succ, hr]
    simp [Vec3.mul, Vec3.add, Vec3.sub, Vec3.zero]
  have hF : stepForces [a, b] [Vec3.zero, Vec3.zero] [⟨0, 1, r⟩] k 0 m Vec3.zero
      = [Vec3.zero, Vec3.zero] := by
    rw [stepForces, hSF]
    simp [addExternalForces, Vec3.add, Vec3.sub, Vec3.mul, Vec3.zero,
      List.mapIdx_cons, List.mapIdx_nil]
  have hV : stepNewVel dt [a, b] [Vec3.zero, Vec3.zero] [⟨0, 1, r⟩] k 0 m Vec3.zero
      = [Vec3.zero, Vec3.zero] := by
    rw [stepNewVel, hF]
    simp [integrateVelocities, Vec3.add, Vec3.div, Vec3.mul, Vec3.zero,
      List.mapIdx_cons, List.mapIdx_nil, List.getD_cons_zero, List.getD_cons_succ]
  have hP : stepNewPos dt [a, b] [Vec3.zero, Vec3.zero] [⟨0, 1, r⟩] k 0 m Vec3.zero
      = [a, b] := by
    rw [stepNewPos, hV]
    simp [integratePositions, Vec3.add, Vec3.mul, Vec3.zero, List.mapIdx_cons,
      List.mapIdx_nil, List.getD_cons_zero, List.getD_cons_succ]
  have hstep : SimTimeStep dt [a, b] [Vec3.zero, Vec3.zero] [⟨0, 1, r⟩] k 0 m
      Vec3.zero 1 = ([a, b], [Vec3.zero, Vec3.zero]) := by
    show (collidePositions 1
        (stepNewPos dt [a, b] [Vec3.zero, Vec3.zero] [⟨0, 1, r⟩] k 0 m Vec3.zero)
        (stepNewVel dt [a, b] [Vec3.zero, Vec3.zero] [⟨0, 1, r⟩] k 0 m Vec3.zero),
      collideVelocities 1
        (stepNewPos dt [a, b] [Vec3.zero, Vec3.zero] [⟨0, 1, r⟩] k 0 m Vec3.zero)
        (stepNewVel dt [a, b] [Vec3.zero, Vec3.zero] [⟨0, 1, r⟩] k 0 m Vec3.zero))
      = ([a, b], [Vec3.zero, Vec3.zero])
    have hbox : ∀ p ∈ ([a, b] : List Vec3), InBox p := by
      intro p hp
      rcases List.mem_pair.mp hp with h | h <;> subst h <;> assumption
    rw [hV, hP, collidePositions_of_inBox _ _ _ hbox,
      collideVelocities_of_inBox _ _ _ hbox]
  induction n with
  | zero => rfl
  | succ n ih =>
      rw [iterateStep]
      show iterateStep dt [⟨0, 1, r⟩] k 0 m Vec3.zero 1 n
        (SimTimeStep dt [a, b] [Vec3.zero, Vec3.zero] [⟨0, 1, r⟩] k 0 m Vec3.zero 1)
        = ([a, b], [Vec3.zero, Vec3.zero])
      rw [hstep, ih]

/-- Witness for C5 (amended): two in-box particles at distance 1 joined by a
rest-1 spring stay fixed for 3 steps. -/
theorem C5_witness :
    ((1 : ℝ) ≠ 0) ∧ Vec3.len ((⟨0, 1, 0⟩ : Vec3).sub ⟨0, 0, 0⟩) = 1
    ∧ InBox ⟨0, 0, 0⟩ ∧ InBox ⟨0, 1, 0⟩
    ∧ iterateStep 0.05 [⟨0, 1, 1⟩] 1 0 1 Vec3.zero 1 3
        ([⟨0, 0, 0⟩, ⟨0, 1, 0⟩], [Vec3.zero, Vec3.zero])
      = ([⟨0, 0, 0⟩, ⟨0, 1, 0⟩], [Vec3.zero, Vec3.zero]) := by
  have hr : Vec3.len ((⟨0, 1, 0⟩ : Vec3).sub ⟨0, 0, 0⟩) = 1 := by
    rw [Vec3.len, Vec3.sub]
    norm_num
  have ha : InBox ⟨0, 0, 0⟩ := by norm_num [InBox]
  have hb : InBox ⟨0, 1, 0⟩ := by norm_num [InBox]
  exact ⟨by norm_num, hr, ha, hb,
    C5_equilibrium_fixed_point 0.05 1 1 1 ⟨0, 0, 0⟩ ⟨0, 1, 0⟩ (by norm_num) hr ha hb 3⟩

/-! ### Sum lemmas for the momentum claim -/

theorem sum_set_real (l : List ℝ) (i : ℕ) (x : ℝ) (h : i < l.length) :
    (l.set i x).sum = l.sum - l.getD i 0 + x := by
  induction l generalizing i with
  | nil => simp at h
  | cons a t ih =>
      cases i with
      | zero =>
          simp only [List.set_cons_zero, List.sum_cons, List.getD_cons_zero]
          ring
      | succ n =>
          simp only [List.set_cons_succ, List.sum_cons, List.getD_cons_succ]
          rw [ih n (by simpa using h)]
          ring

theorem compSum_set_add (g : Vec3 → ℝ) (hadd : ∀ u w : Vec3, g (u.add w) = g u + g w)
    (hzero : g Vec3.zero = 0) (l : List Vec3) (i : ℕ) (w : Vec3) (h : i < l.length) :
    compSum g (l.set i ((l.getD i Vec3.zero).add w)) = compSum g l + g w := by
  rw [compSum, compSum, List.map_set, sum_set_real _ _ _ (by simpa using h), hadd]
  have hg : (List.map g l).getD i 0 = g (l.getD i Vec3.zero) := by
    rw [← hzero, List.getD_map]
  rw [hg]
  ring

theorem compSum_set_sub (g : Vec3 → ℝ) (hsub : ∀ u w : Vec3, g (u.sub w) = g u - g w)
    (hzero : g Vec3.zero = 0) (l : List Vec3) (i : ℕ) (w : Vec3) (h : i < l.length) :
    compSum g (l.set i ((l.getD i Vec3.zero).sub w)) = compSum g l - g w := by
  rw [compSum, compSum, List.map_set, sum_set_real _ _ _ (by simpa using h), hsub]
  have hg : (List.map g l).getD i 0 = g (l.getD i Vec3.zero) := by
    rw [← hzero, List.getD_map]
  rw [hg]
  ring

theorem compSum_applySpring (g : Vec3 → ℝ)
    (hadd : ∀ u w : Vec3, g (u.add w) = g u + g w)
    (hsub : ∀ u w : Vec3, g (u.sub w) = g u - g w)
    (hzero : g Vec3.zero = 0) (k : ℝ) (P f : List Vec3) (s : Spring)
    (h0 : s.p0 < f.length) (h1 : s.p1 < f.length) :
    compSum g (applySpring k P f s) = compSum g f := by
  simp only [applySpring]
  rw [compSum_set_sub g hsub hzero _ _ _ (by simpa using h1),
    compSum_set_add g hadd hzero _ _ _ h0]
  ring

theorem compSum_foldl_applySpring (g : Vec3 → ℝ)
    (hadd : ∀ u w : Vec3, g (u.add w) = g u + g w)
    (hsub : ∀ u w : Vec3, g (u.sub w) = g u - g w)
    (hzero : g Vec3.zero = 0) (k : ℝ) (P : List Vec3) :
    ∀ (S : List Spring) (f : List Vec3), f.length = P.length →
      (∀ s ∈ S, s.p0 < P.length ∧ s.p1 < P.length) →
      compSum g (S.foldl (applySpring k P) f) = compSum g f := by
  intro S
  induction S with
  | nil => intro f _ _; rfl
  | cons s t ih =>
      intro f hf hval
      rw [List.foldl_cons,
        ih (applySpring k P f s) (by rw [length_applySpring, hf])
          (fun q hq => hval q (List.mem_cons_of_mem _ hq)),
        compSum_applySpring g hadd hsub hzero k P f s
          (by rw [hf]; exact (hval s (List.mem_cons_self _ _)).1)
          (by rw [hf]; exact (hval s (List.mem_cons_self _ _)).2)]

theorem compSum_springForces (g : Vec3 → ℝ)
    (hadd : ∀ u w : Vec3, g (u.add w) = g u + g w)
    (hsub : ∀ u w : Vec3, g (u.sub w) = g u - g w)
    (hzero : g Vec3.zero = 0) (k : ℝ) (P : List Vec3) (S : List Spring)
    (hval : ∀ s ∈ S, s.p0 < P.length ∧ s.p1 < P.length) :
    compSum g (springForces k P S) = 0 := by
  rw [springForces,
    compSum_foldl_applySpring g hadd hsub hzero k P S _ (by simp) hval, compSum,
    List.map_replicate, hzero, List.sum_replicate, smul_zero]

theorem integrateVelocities_eq_zipWith (dt m : ℝ) (F P V : List Vec3)
    (hF : F.length = P.length) (hV : V.length = P.length) :
    integrateVelocities dt m F P V
      = List.zipWith (fun v f => v.add ((f.div m).mul dt)) V F := by
  apply List.ext_getElem
    (by rw [length_integrateVelocities, List.length_zipWith, hF, hV, min_self])
  intro i h1 h2
  have hiV : i < V.length := by
    rw [length_integrateVelocities] at h1
    exact h1
  have hiP : i < P.length := hV ▸ hiV
  have hiF : i < F.length := by rw [hF]; exact hiP
  simp only [integrateVelocities, List.getElem_mapIdx, List.getElem_zipWith]
  rw [if_pos hiP, List.getD_eq_getElem _ _ hiF]

theorem addExternalForces_zero_damping (m : ℝ) (g : Vec3) (V F : List Vec3) :
    addExternalForces 0 m g V F = F.map fun f => f.add (g.mul m) := by
  apply List.ext_getElem (by simp [addExternalForces])
  intro i h1 h2
  simp only [addExternalForces, List.getElem_mapIdx, List.getElem_map]
  simp [Vec3.sub, Vec3.mul]

theorem sum_zipWith_split (A B : Vec3 → ℝ) (V F : List Vec3)
    (h : V.length = F.length) :
    (List.zipWith (fun v f => A v + B f) V F).sum = (V.map A).sum + (F.map B).sum := by
  induction V generalizing F with
  | nil =>
      cases F with
      | nil => simp
      | cons f t => simp at h
  | cons v tV ih =>
      cases F with
      | nil => simp at h
      | cons f tF =>
          simp only [List.zipWith_cons_cons, List.sum_cons, List.map_cons]
          rw [ih tF (by simpa using h)]
          ring

theorem sum_map_div_mul (g : Vec3 → ℝ) (F : List Vec3) (m dt : ℝ) :
    (F.map fun f => g f / m * dt).sum = (F.map g).sum / m * dt := by
  induction F with
  | nil => simp
  | cons f t ih =>
      simp only [List.map_cons, List.sum_cons]
      rw [ih]
      ring

theorem sum_map_add_const (g : Vec3 → ℝ) (c : ℝ) (l : List Vec3) :
    (l.map fun f => g f + c).sum = (l.map g).sum + l.length * c := by
  induction l with
  | nil => simp
  | cons a t ih =>
      simp only [List.map_cons, List.sum_cons, List.length_cons]
      rw [ih]
      push_cast
      ring

theorem compSum_stepNewVel (g : Vec3 → ℝ)
    (hadd : ∀ u w : Vec3, g (u.add w) = g u + g w)
    (hsub : ∀ u w : Vec3, g (u.sub w) = g u - g w)
    (hmul : ∀ (u : Vec3) (c : ℝ), g (u.mul c) = g u * c)
    (hdiv : ∀ (u : Vec3) (c : ℝ), g (u.div c) = g u / c)
    (hzero : g Vec3.zero = 0)
    (dt k m : ℝ) (P V : List Vec3) (S : List Spring) (gv : Vec3)
    (hval : ∀ s ∈ S, s.p0 < P.length ∧ s.p1 < P.length)
    (hlen : V.length = P.length) (hm : m ≠ 0) (hdt : dt ≤ 0.05) :
    compSum g (stepNewVel dt P V S k 0 m gv)
      = compSum g V + (P.length : ℝ) * (g gv * dt) := by
  have hclamp : clampDt dt = dt := by rw [clampDt, if_neg (not_lt.mpr hdt)]
  rw [stepNewVel, hclamp,
    integrateVelocities_eq_zipWith dt m _ P V (length_stepForces P V S k 0 m gv) hlen,
    compSum, List.map_zipWith]
  have hz : List.zipWith (fun v f => g (v.add ((f.div m).mul dt))) V
        (stepForces P V S k 0 m gv)
      = List.zipWith (fun v f => g v + g f / m * dt) V (stepForces P V S k 0 m gv) := by
    apply List.ext_getElem (by simp)
    intro i h1 h2
    simp only [List.getElem_zipWith]
    rw [hadd, hmul, hdiv]
  rw [hz,
    sum_zipWith_split g (fun f => g f / m * dt) V _ (by rw [length_stepForces, hlen]),
    sum_map_div_mul]
  have hFsum : ((stepForces P V S k 0 m gv).map g).sum = (P.length : ℝ) * (g gv * m) := by
    rw [stepForces, addExternalForces_zero_damping, List.map_map]
    have hcomp : (g ∘ fun f => f.add (gv.mul m)) = fun f => g f + g gv * m := by
      funext f
      simp only [Function.comp_apply, hadd, hmul]
    rw [hcomp, sum_map_add_const, ← compSum,
      compSum_springForces g hadd hsub hzero k P S hval, length_springForces]
    ring
  rw [hFsum, ← compSum]
  have harith : (P.length : ℝ) * (g gv * m) / m * dt = (P.length : ℝ) * (g gv * dt) := by
    field_simp
    ring
  rw [harith]

/-- C10: for every spring the force accumulated onto `p0` is the exact
negation of the force accumulated onto `p1`; the sum over all particles of the
accumulated spring forces is the zero vector; and with zero damping and no
collision clamping triggered on the step, the sum of all velocity changes is
`N * (gravity * dt)`. -/
theorem C10_newton_third_law_momentum (dt stiffness particleMass : ℝ)
    (positions velocities : List Vec3) (springs : List Spring) (gravity : Vec3)
    (restitution : ℝ)
    (hval : ∀ s ∈ springs, s.p0 < positions.length ∧ s.p1 < positions.length)
    (hlen : velocities.length = positions.length)
    (hm : particleMass ≠ 0) (hdt : dt ≤ 0.05)
    (hbox : ∀ p ∈ stepNewPos dt positions velocities springs stiffness 0 particleMass
        gravity, InBox p) :
    (∀ (f : List Vec3) (s : Spring), s ∈ springs → s.p0 < f.length →
      s.p1 < f.length → s.p0 ≠ s.p1 →
      ((applySpring stiffness positions f s).getD s.p0 Vec3.zero).sub
          (f.getD s.p0 Vec3.zero)
        = Vec3.zero.sub (((applySpring stiffness positions f s).getD s.p1 Vec3.zero).sub
            (f.getD s.p1 Vec3.zero)))
    ∧ vecSum (springForces stiffness positions springs) = Vec3.zero
    ∧ (vecSum ((SimTimeStep dt positions velocities springs stiffness 0 particleMass
          gravity restitution).2)).sub (vecSum velocities)
      = (gravity.mul dt).mul (positions.length : ℝ) := by
  refine ⟨?_, ?_, ?_⟩
  · intro f s _ h0 h1 hne
    simp only [applySpring]
    rw [getD_set_ne _ _ _ _ _ (Ne.symm hne), getD_set_self _ _ _ _ h0,
      getD_set_self _ _ _ _ (by simpa using h1), getD_set_ne _ _ _ _ _ hne]
    simp only [Vec3.add, Vec3.sub, Vec3.zero, Vec3.mk.injEq]
    refine ⟨by ring, by ring, by ring⟩
  · have hx := compSum_springForces Vec3.x (fun _ _ => rfl) (fun _ _ => rfl) rfl
      stiffness positions springs hval
    have hy := compSum_springForces Vec3.y (fun _ _ => rfl) (fun _ _ => rfl) rfl
      stiffness positions springs hval
    have hz := compSum_springForces Vec3.z (fun _ _ => rfl) (fun _ _ => rfl) rfl
      stiffness positions springs hval
    rw [compSum] at hx hy hz
    rw [vecSum, hx, hy, hz]
    rfl
  · have hfin : (SimTimeStep dt positions velocities springs stiffness 0 particleMass
        gravity restitution).2
        = stepNewVel dt positions velocities springs stiffness 0 particleMass gravity := by
      show collideVelocities restitution
        (stepNewPos dt positions velocities springs stiffness 0 particleMass gravity)
        (stepNewVel dt positions velocities springs stiffness 0 particleMass gravity)
        = stepNewVel dt positions velocities springs stiffness 0 particleMass gravity
      exact collideVelocities_of_inBox _ _ _ hbox
    rw [hfin]
    have hx := compSum_stepNewVel Vec3.x (fun _ _ => rfl) (fun _ _ => rfl)
      (fun _ _ => rfl) (fun _ _ => rfl) rfl dt stiffness particleMass positions
      velocities springs gravity hval hlen hm hdt
    have hy := compSum_stepNewVel Vec3.y (fun _ _ => rfl) (fun _ _ => rfl)
      (fun _ _ => rfl) (fun _ _ => rfl) rfl dt stiffness particleMass positions
      velocities springs gravity hval hlen hm hdt
    have hz := compSum_stepNewVel Vec3.z (fun _ _ => rfl) (fun _ _ => rfl)
      (fun _ _ => rfl) (fun _ _ => rfl) rfl dt stiffness particleMass positions
      velocities springs gravity hval hlen hm hdt
    rw [compSum, compSum] at hx hy hz
    simp only [vecSum, Vec3.sub, Vec3.mul, Vec3.mk.injEq]
    rw [hx, hy, hz]
    refine ⟨by ring, by ring, by ring⟩

/-- Witness for C10 on a one-particle, no-spring state under gravity
`(0, -10, 0)` with mass 2 and `dt = 0.05`: the total velocity change is
`1 * (gravity * dt)`. -/
theorem C10_witness :
    (∀ s ∈ ([] : List Spring), s.p0 < 1 ∧ s.p1 < 1)
    ∧ ([Vec3.zero] : List Vec3).length = ([⟨0, 0, 0⟩] : List Vec3).length
    ∧ ((2 : ℝ) ≠ 0) ∧ ((0.05 : ℝ) ≤ 0.05)
    ∧ (∀ p ∈ stepNewPos 0.05 [⟨0, 0, 0⟩] [Vec3.zero] [] 1 0 2 ⟨0, -10, 0⟩, InBox p)
    ∧ (vecSum ((SimTimeStep 0.05 [⟨0, 0, 0⟩] [Vec3.zero] [] 1 0 2 ⟨0, -10, 0⟩ 1).2)).sub
        (vecSum [Vec3.zero])
      = ((⟨0, -10, 0⟩ : Vec3).mul 0.05).mul ((([⟨0, 0, 0⟩] : List Vec3).length : ℝ)) := by
  have hbox : ∀ p ∈ stepNewPos 0.05 [⟨0, 0, 0⟩] [Vec3.zero] [] 1 0 2 ⟨0, -10, 0⟩,
      InBox p := by
    intro p hp
    rw [show stepNewPos 0.05 [⟨0, 0, 0⟩] [Vec3.zero] [] 1 0 2 ⟨0, -10, 0⟩
        = [⟨0, -0.025, 0⟩] by
      norm_num [stepNewPos, stepNewVel, stepForces, springForces, addExternalForces,
        integrateVelocities, integratePositions, clampDt, Vec3.add, Vec3.sub, Vec3.mul,
        Vec3.div, Vec3.zero, List.mapIdx_cons, List.mapIdx_nil, List.replicate]] at hp
    simp at hp
    subst hp
    norm_num [InBox]
  exact ⟨by simp, rfl, by norm_num, by norm_num, hbox,
    (C10_newton_third_law_momentum 0.05 1 2 [⟨0, 0, 0⟩] [Vec3.zero] [] ⟨0, -10, 0⟩ 1
      (by simp) rfl (by norm_num) (by norm_num) hbox).2.2⟩
